import Mathlib

/-!
Verification development for the QueueCTL job-queue repository.

The repository contains three cooperating layers:
* `database.py` + `worker.py` + `queuectl.py` — the ORM-backed application
  (`Job` rows, `Worker.get_job_to_process`, `Worker.process_job`, the CLI);
* `db.py` + `models.py` + `dlq.py` — the raw-sqlite layer (`MRow` below);
* `storage.py` — the `JobStorage` class (`SRow` below).

Timestamps are modelled as natural numbers (ISO-8601 strings compare
chronologically, and `datetime` values are totally ordered).  A database is a
list of rows in physical (insertion) order; SQL `UPDATE ... WHERE id=?` is a
map over that list, and an ORM mutation of a row fetched by primary key is the
same map.  Fallible paths are modelled with `Except`.
-/

namespace QueueCTL

/-- Job states, as the string enum used throughout the repository
(`pending`, `processing`, `completed`, `failed`, `dead`). -/
inductive JState where
  | pending
  | processing
  | completed
  | failed
  | dead
deriving DecidableEq, Repr

/-- A row of the `jobs` table of `database.py` (the SQLAlchemy `Job` model):
`id`, `command`, `state`, `attempts`, `max_retries`, `timeout`, `last_error`,
`process_pid`, `created_at`, `updated_at`, `retry_at`. -/
structure Job where
  id : String
  command : String
  state : JState
  attempts : Nat
  maxRetries : Nat
  timeout : Option Int
  lastError : Option String
  processPid : Option Nat
  createdAt : Nat
  updatedAt : Nat
  retryAt : Option Nat
deriving DecidableEq, Repr

/-- A row of the `jobs` table used by `models.py` and `dlq.py` (schema from
their SQL: `id, command, state, attempts, max_retries, base_backoff,
created_at, updated_at, next_run_at, locked_by, timeout, output_log`). -/
structure MRow where
  id : String
  command : String
  state : JState
  attempts : Nat
  maxRetries : Nat
  baseBackoff : Nat
  createdAt : Nat
  updatedAt : Nat
  nextRunAt : Nat
  lockedBy : Option String
  timeout : Option Int
  outputLog : Option String
deriving DecidableEq, Repr

/-- A row of the `jobs` table of `storage.py` (`id, payload, command, state,
attempts, max_retries, priority, run_at, created_at, updated_at, last_error`).
The `payload` column stores the JSON text written at insertion time and is
never updated afterwards; it is kept opaque here. -/
structure SRow where
  id : String
  payload : String
  command : String
  state : JState
  attempts : Nat
  maxRetries : Nat
  priority : Int
  runAt : Option Nat
  createdAt : Nat
  updatedAt : Nat
  lastError : Option String
deriving DecidableEq, Repr

/-- Result of one command execution, as `worker.py` observes it:
`subprocess.run` returned (with an exit code and captured streams), raised
`subprocess.TimeoutExpired`, or raised some other exception (command not
launchable, ORM error, ...). -/
inductive Outcome where
  | ran (returncode : Int) (stdout stderr : String)
  | timedOut
  | exc (msg : String)
deriving DecidableEq, Repr

/-- Runtime errors of `Worker.process_job`.  `nameErrorNow` models the Python
`NameError` raised in the `except subprocess.TimeoutExpired` handler: that
branch evaluates `now + timedelta(seconds=delay)` but the local variable `now`
is only assigned (line 107 of `worker.py`) after `subprocess.run` has returned
normally, so on the timeout path it is unbound. -/
inductive WorkerErr where
  | nameErrorNow
deriving DecidableEq, Repr

/-- Decidable equality on execution results, used to evaluate concrete runs. -/
instance {ε α : Type} [DecidableEq ε] [DecidableEq α] : DecidableEq (Except ε α)
  | .ok a, .ok b =>
    if h : a = b then isTrue (by rw [h]) else isFalse (by intro hh; cases hh; exact h rfl)
  | .ok _, .error _ => isFalse (by intro hh; cases hh)
  | .error _, .ok _ => isFalse (by intro hh; cases hh)
  | .error e, .error e2 =>
    if h : e = e2 then isTrue (by rw [h]) else isFalse (by intro hh; cases hh; exact h rfl)

/-! ### Generic list-as-table helpers -/

/-- An SQL `UPDATE ... WHERE p` over a table held as a list in physical
order: every row satisfying `p` is replaced by `f` of itself. -/
def updateWhere {α : Type} (p : α → Bool) (f : α → α) (l : List α) : List α :=
  l.map fun x => if p x then f x else x

/-- Finding by a predicate after an update that preserves the predicate
returns the updated row. -/
theorem find?_updateWhere {α : Type} (p : α → Bool) (f : α → α)
    (hf : ∀ x, p x = true → p (f x) = true) (l : List α) :
    (updateWhere p f l).find? p = (l.find? p).map f := by
  induction l with
  | nil => rfl
  | cons x xs ih =>
    by_cases hx : p x = true
    · rw [show updateWhere p f (x :: xs) = f x :: updateWhere p f xs by
        simp [updateWhere, hx]]
      rw [List.find?_cons_of_pos _ (hf x hx), List.find?_cons_of_pos _ hx]
      rfl
    · rw [show updateWhere p f (x :: xs) = x :: updateWhere p f xs by
        simp [updateWhere, hx]]
      rw [List.find?_cons_of_neg _ hx, List.find?_cons_of_neg _ hx]
      exact ih

/-- Membership in an updated table: every row is either an old row that did
not match the predicate, or the update of an old row that did. -/
theorem mem_updateWhere {α : Type} (p : α → Bool) (f : α → α) (l : List α)
    (x : α) (hx : x ∈ updateWhere p f l) :
    (∃ y ∈ l, p y = false ∧ x = y) ∨ (∃ y ∈ l, p y = true ∧ x = f y) := by
  rcases List.mem_map.mp hx with ⟨y, hy, hxy⟩
  by_cases hp : p y = true
  · exact Or.inr ⟨y, hy, hp, by rw [← hxy, if_pos hp]⟩
  · refine Or.inl ⟨y, hy, ?_, by rw [← hxy, if_neg hp]⟩
    cases hpy : p y
    · rfl
    · exact absurd hpy hp

/-! ### Worker embedding (`worker.py`) -/

/-- Eligibility filter of `Worker.get_job_to_process` (lines 63–66 of
`worker.py`): `Job.state.in_(['pending','failed'])` and
`(Job.retry_at == None) | (Job.retry_at <= now)`. -/
def eligibleB (now : Nat) (j : Job) : Bool :=
  (decide (j.state = .pending) || decide (j.state = .failed)) &&
  (match j.retryAt with
   | none => true
   | some t => decide (t ≤ now))

/-- Semantics of `ORDER BY created_at ASC LIMIT 1` on a table in physical
order: the first row carrying the minimal `created_at`.  The SQL emitted by
both `get_job_to_process` and `fetch_and_lock_pending` orders by `created_at`
only — there is no secondary ordering term — so rows with equal `created_at`
are returned in table order. -/
def pickFirstMin : List Job → Option Job
  | [] => none
  | j :: rest =>
    match pickFirstMin rest with
    | none => some j
    | some b => if b.createdAt < j.createdAt then some b else some j

theorem pickFirstMin_cons_isSome (z : Job) (zs : List Job) :
    (pickFirstMin (z :: zs)).isSome = true := by
  simp only [pickFirstMin]
  cases pickFirstMin zs with
  | none => rfl
  | some b => by_cases hw : b.createdAt < z.createdAt <;> simp [hw]

theorem pickFirstMin_mem (l : List Job) (j : Job) (h : pickFirstMin l = some j) :
    j ∈ l := by
  induction l generalizing j with
  | nil => simp [pickFirstMin] at h
  | cons x xs ih =>
    simp only [pickFirstMin] at h
    split at h
    · cases h
      exact List.mem_cons_self _ _
    · rename_i b hrest
      split at h
      · cases h
        exact List.mem_cons_of_mem _ (ih _ hrest)
      · cases h
        exact List.mem_cons_self _ _

theorem pickFirstMin_min (l : List Job) (j : Job) (h : pickFirstMin l = some j) :
    ∀ x ∈ l, j.createdAt ≤ x.createdAt := by
  induction l generalizing j with
  | nil => simp [pickFirstMin] at h
  | cons y ys ih =>
    intro x hx
    simp only [pickFirstMin] at h
    split at h
    · rename_i hrest
      cases h
      rcases List.mem_cons.mp hx with rfl | hmem
      · exact le_refl _
      · exfalso
        cases ys with
        | nil => cases hmem
        | cons z zs =>
          have hs := pickFirstMin_cons_isSome z zs
          rw [hrest] at hs
          simp at hs
    · rename_i b hrest
      split at h
      · rename_i hlt
        injection h with h2
        subst h2
        rcases List.mem_cons.mp hx with rfl | hmem
        · exact le_of_lt hlt
        · exact ih _ hrest x hmem
      · rename_i hlt
        cases h
        rcases List.mem_cons.mp hx with rfl | hmem
        · exact le_refl _
        · exact le_trans (Nat.le_of_not_lt hlt) (ih _ hrest x hmem)

/-- Row selection of `get_job_to_process`: filter by eligibility, then take
the first row of minimal `created_at`. -/
def selectReady (now : Nat) (db : List Job) : Option Job :=
  pickFirstMin (db.filter (eligibleB now))

/-- The mutation performed on the selected row by `get_job_to_process`:
`job.state = 'processing'; job.process_pid = self.pid; job.updated_at = now`. -/
def claimed (pid now : Nat) (j : Job) : Job :=
  { j with state := .processing, processPid := some pid, updatedAt := now }

/-- The atomic claim, `Worker.get_job_to_process` (lines 57–78 of
`worker.py`): select one eligible row under `with_for_update`, set
`state='processing'`, `process_pid=self.pid`, `updated_at=now`, commit, and
return the updated row.  Note that `attempts` is not touched here. -/
def getJobToProcess (pid now : Nat) (db : List Job) : Option Job × List Job :=
  match selectReady now db with
  | none => (none, db)
  | some j =>
    (some (claimed pid now j),
     updateWhere (fun x => decide (x.id = j.id)) (fun _ => claimed pid now j) db)

/-- Outcome handling of `Worker.process_job` (lines 86–173 of `worker.py`),
as a function of the claimed job, the execution outcome, the configured
`backoff-base`, and the commit time.  Branches follow the source:
* exit code 0 → `completed`, `process_pid=None`;
* non-zero exit → `attempts += 1`; if `attempts <= max_retries` then
  `state='failed'` with `retry_at = now + backoff_base ** attempts`,
  else `state='dead'` with `process_pid=None`;
* `TimeoutExpired` → `attempts += 1`; the retry sub-branch evaluates the
  unbound local `now` and raises `NameError` (see `WorkerErr.nameErrorNow`);
  the bury sub-branch sets `state='dead'`, `process_pid=None`;
* any other exception → `attempts += 1`; retry sub-branch sets
  `state='failed'` but assigns no `retry_at`; bury sub-branch as above.
The `finally` block stamps `updated_at`; its slightly later clock read is
modelled by the same `now`.  String truncation `[:100]` is kept, `strip()`
is omitted as irrelevant to every claim. -/
def processJob (base now : Nat) (out : Outcome) (j : Job) : Except WorkerErr Job :=
  match out with
  | .ran rc so se =>
    if rc = 0 then
      .ok { j with state := .completed, processPid := none,
                   lastError := some ("Exit Code 0. Stdout: " ++ so.take 100),
                   updatedAt := now }
    else
      let a := j.attempts + 1
      let err := some ("Exit Code " ++ toString rc ++ ". Stderr: " ++ se.take 100)
      if a ≤ j.maxRetries then
        .ok { j with attempts := a, lastError := err,
                     retryAt := some (now + base ^ a), state := .failed, updatedAt := now }
      else
        .ok { j with attempts := a, lastError := err, state := .dead,
                     processPid := none, updatedAt := now }
  | .timedOut =>
    let a := j.attempts + 1
    if a ≤ j.maxRetries then
      .error .nameErrorNow
    else
      .ok { j with attempts := a, lastError := some "Job execution timed out.",
                   state := .dead, processPid := none, updatedAt := now }
  | .exc msg =>
    let a := j.attempts + 1
    let err := some ("Internal worker error: " ++ msg.take 100)
    if a ≤ j.maxRetries then
      .ok { j with attempts := a, lastError := err, state := .failed, updatedAt := now }
    else
      .ok { j with attempts := a, lastError := err, state := .dead,
                   processPid := none, updatedAt := now }

/-- The `dlq retry` command of `queuectl.py` (lines 236–252): look up the row
with this id in state `dead`; if found set `state='pending'`, `attempts=0`,
`updated_at=now` and report success, otherwise report failure and change
nothing. -/
def dlqRetryCLI (id : String) (now : Nat) (db : List Job) : Bool × List Job :=
  match db.find? (fun x => decide (x.id = id ∧ x.state = .dead)) with
  | none => (false, db)
  | some j =>
    (true, updateWhere (fun x => decide (x.id = j.id))
      (fun x => { x with state := .pending, attempts := 0, updatedAt := now }) db)

/-- One iteration of the worker loop against the store: claim one job
(`get_job_to_process`) and, if one was obtained, run `process_job` on it and
persist the result.  When `process_job` raises (the timeout `NameError`), the
exception propagates before the job object is merged into the fresh session,
so the database keeps the post-claim row unchanged. -/
def workerIter (base pid now : Nat) (out : Outcome) (db : List Job) : List Job :=
  match getJobToProcess pid now db with
  | (none, db') => db'
  | (some j, db') =>
    match processJob base now out j with
    | .ok j2 => updateWhere (fun x => decide (x.id = j2.id)) (fun _ => j2) db'
    | .error _ => db'

/-! ### Models layer embedding (`models.py`, `dlq.py`) -/

/-- Primary-key lookup in the models-layer table. -/
def mFindById (db : List MRow) (id : String) : Option MRow :=
  db.find? (fun r => decide (r.id = id))

/-- The `create_job` function of `models.py` (lines 7–25): inserts a row with
`state='pending'`, `attempts=0`, `next_run_at = run_at or created`, no
validation of `command` or `timeout` whatsoever.  The generated id and the
clock reading are passed in (`gen_id` / `now_iso` are injected effects). -/
def create_job (command : String) (max_retries base_backoff : Nat)
    (timeout : Option Int) (run_at : Option Nat) (newId : String) (created : Nat)
    (db : List MRow) : String × List MRow :=
  let r : MRow :=
    { id := newId, command := command, state := .pending, attempts := 0,
      maxRetries := max_retries, baseBackoff := base_backoff,
      createdAt := created, updatedAt := created,
      nextRunAt := run_at.getD created, lockedBy := none,
      timeout := timeout, outputLog := none }
  (newId, db ++ [r])

/-- The `update_job_state` function of `models.py` (lines 42–51), used for
completion: `UPDATE jobs SET state=?, updated_at=?, output_log=?,
locked_by=NULL WHERE id=?` — unconditional on the current state. -/
def update_job_state (id : String) (state : JState) (now : Nat)
    (output_log : Option String) (db : List MRow) : List MRow :=
  updateWhere (fun r => decide (r.id = id))
    (fun r => { r with state := state, updatedAt := now,
                       outputLog := output_log, lockedBy := none }) db

/-- The `schedule_retry` function of `models.py` (lines 53–64):
`delay = base_backoff ** attempts`; `UPDATE jobs SET state='pending',
next_run_at = now + delay, updated_at=now, locked_by=NULL WHERE id=?`. -/
def schedule_retry (id : String) (attempts base_backoff : Nat) (now : Nat)
    (db : List MRow) : List MRow :=
  updateWhere (fun r => decide (r.id = id))
    (fun r => { r with state := .pending,
                       nextRunAt := now + base_backoff ^ attempts,
                       updatedAt := now, lockedBy := none }) db

/-- The `mark_dead` function of `models.py` (lines 66–75): `UPDATE jobs SET
state='dead', updated_at=?, output_log=?, locked_by=NULL WHERE id=?` — again
unconditional: no check that the row is currently `processing`, and no error
channel at all. -/
def mark_dead (id : String) (now : Nat) (output_log : Option String)
    (db : List MRow) : List MRow :=
  updateWhere (fun r => decide (r.id = id))
    (fun r => { r with state := .dead, updatedAt := now,
                       outputLog := output_log, lockedBy := none }) db

/-! ### Storage embedding (`storage.py`) -/

/-- Primary-key lookup in the storage-layer table. -/
def sFindById (db : List SRow) (id : String) : Option SRow :=
  db.find? (fun r => decide (r.id = id))

/-- The `move_to_dead` method of `JobStorage` (lines 111–114 of
`storage.py`): `UPDATE jobs SET state='dead', updated_at=?, last_error=?
WHERE id=?` — unconditional on the current state, no error channel. -/
def move_to_dead (id : String) (now : Nat) (last_error : Option String)
    (db : List SRow) : List SRow :=
  updateWhere (fun r => decide (r.id = id))
    (fun r => { r with state := .dead, updatedAt := now, lastError := last_error }) db

/-- The `retry_dead_job` method of `JobStorage` (lines 116–123 of
`storage.py`): `SELECT id FROM jobs WHERE id=? AND state='dead'`; if a row is
found, `UPDATE jobs SET state='pending', attempts=0, updated_at=?,
last_error=NULL WHERE id=?` and return `True`, else return `False`.  Note the
update touches neither `run_at` nor any lock field. -/
def retry_dead_job (id : String) (now : Nat) (db : List SRow) : Bool × List SRow :=
  match db.find? (fun r => decide (r.id = id ∧ r.state = .dead)) with
  | none => (false, db)
  | some _ =>
    (true, updateWhere (fun r => decide (r.id = id))
      (fun r => { r with state := .pending, attempts := 0,
                         updatedAt := now, lastError := none }) db)

/-! ### CLI enqueue embedding (`queuectl.py`) -/

/-- Decoded JSON body accepted by the `enqueue` CLI command.  The code only
reads `command` and `max_retries`; a `timeout` field, if supplied, is ignored
(the ORM default of 300 applies). -/
structure EnqSpec where
  command : Option String
  max_retries : Option Nat
  timeout : Option Int
deriving DecidableEq, Repr

/-- The `enqueue` command of `queuectl.py` (lines 38–82): after JSON parsing,
`command = data.get('command'); if not command: error` — so a missing command
and an empty command are both rejected with no insert (Python truthiness).
Otherwise a `Job` row is added with `state='pending'` and the ORM defaults
`attempts=0`, `timeout=300`; `max_retries` comes from the payload or the
configured default.  Returns the new id on success. -/
def enqueueCLI (data : EnqSpec) (defaultMaxRetries : Nat) (newId : String)
    (now : Nat) (db : List Job) : Option String × List Job :=
  match data.command with
  | none => (none, db)
  | some c =>
    if c = "" then (none, db)
    else
      let j : Job :=
        { id := newId, command := c, state := .pending, attempts := 0,
          maxRetries := data.max_retries.getD defaultMaxRetries,
          timeout := some 300, lastError := none, processPid := none,
          createdAt := now, updatedAt := now, retryAt := none }
      (some newId, db ++ [j])

/-! ### Transition system of the wired application

The operations that actually run against the `database.py` store are: the CLI
`enqueue`, one worker iteration (claim + execute + persist), and the CLI
`dlq retry`.  `JobStorage.increment_attempts_and_backoff` has no caller
anywhere in the repository, so it contributes no step. -/

/-- One observable mutation of the job table. -/
inductive Step : List Job → List Job → Prop
  | enq (db : List Job) (data : EnqSpec) (d : Nat) (newId : String) (now : Nat) :
      Step db (enqueueCLI data d newId now db).2
  | work (db : List Job) (base pid now : Nat) (out : Outcome) :
      Step db (workerIter base pid now out db)
  | dlq (db : List Job) (id : String) (now : Nat) :
      Step db (dlqRetryCLI id now db).2

/-- Inductive per-job invariant: outside the dead state a job has consumed at
most `max_retries` attempts; a dead job has consumed at most one more. -/
def JobInv (j : Job) : Prop :=
  (j.state = .dead → j.attempts ≤ j.maxRetries + 1) ∧
  (j.state ≠ .dead → j.attempts ≤ j.maxRetries)

instance (j : Job) : Decidable (JobInv j) := by
  unfold JobInv
  infer_instance

theorem JobInv_bound (j : Job) (h : JobInv j) : j.attempts ≤ j.maxRetries + 1 := by
  by_cases hd : j.state = .dead
  · exact h.1 hd
  · exact le_trans (h.2 hd) (Nat.le_succ _)

theorem eligibleB_not_dead (now : Nat) (j : Job) (h : eligibleB now j = true) :
    j.state ≠ .dead := by
  intro hd
  simp only [eligibleB, hd] at h
  simp at h

theorem selectReady_spec (now : Nat) (db : List Job) (j : Job)
    (h : selectReady now db = some j) :
    j ∈ db ∧ eligibleB now j = true := by
  have hm := pickFirstMin_mem _ _ h
  exact ⟨(List.mem_filter.mp hm).1, (List.mem_filter.mp hm).2⟩

/-- Characterisation of a successful claim: the returned row is the mutation
of the selected eligible row, with `attempts` untouched, and the table holds
that mutation in place of the old row. -/
theorem getJobToProcess_some (pid now : Nat) (db : List Job) (j' : Job)
    (h : (getJobToProcess pid now db).1 = some j') :
    ∃ j, selectReady now db = some j ∧ j ∈ db ∧ eligibleB now j = true ∧
      j' = claimed pid now j ∧ j'.attempts = j.attempts ∧
      j'.state = .processing ∧ j'.processPid = some pid ∧ j'.updatedAt = now ∧
      (getJobToProcess pid now db).2 =
        updateWhere (fun x => decide (x.id = j.id)) (fun _ => j') db := by
  cases hsel : selectReady now db with
  | none => simp [getJobToProcess, hsel] at h
  | some jc =>
    obtain ⟨hmem, helig⟩ := selectReady_spec now db jc hsel
    simp only [getJobToProcess, hsel] at h
    injection h with h
    subst h
    exact ⟨jc, rfl, hmem, helig, rfl, rfl, rfl, rfl, rfl, by
      simp [getJobToProcess, hsel]⟩

theorem getJobToProcess_none (pid now : Nat) (db : List Job)
    (h : selectReady now db = none) :
    getJobToProcess pid now db = (none, db) := by
  simp [getJobToProcess, h]

/-- After one execution, `process_job` preserves the per-job invariant,
provided the job enters with its retry budget not yet exhausted. -/
theorem processJob_inv (base now : Nat) (out : Outcome) (j j2 : Job)
    (hj : j.attempts ≤ j.maxRetries)
    (h : processJob base now out j = .ok j2) : JobInv j2 := by
  cases out with
  | ran rc so se =>
    simp only [processJob] at h
    split at h
    · injection h with h
      subst h
      refine ⟨fun hd => ?_, fun _ => ?_⟩
      · simp at hd
      · simpa using hj
    · split at h
      · rename_i hle
        injection h with h
        subst h
        refine ⟨fun hd => ?_, fun _ => ?_⟩
        · simp at hd
        · simpa using hle
      · injection h with h
        subst h
        refine ⟨fun _ => ?_, fun hnd => ?_⟩
        · simpa using Nat.succ_le_succ hj
        · simp at hnd
  | timedOut =>
    simp only [processJob] at h
    split at h
    · cases h
    · injection h with h
      subst h
      refine ⟨fun _ => ?_, fun hnd => ?_⟩
      · simpa using Nat.succ_le_succ hj
      · simp at hnd
  | exc msg =>
    simp only [processJob] at h
    split at h
    · rename_i hle
      injection h with h
      subst h
      refine ⟨fun hd => ?_, fun _ => ?_⟩
      · simp at hd
      · simpa using hle
    · injection h with h
      subst h
      refine ⟨fun _ => ?_, fun hnd => ?_⟩
      · simpa using Nat.succ_le_succ hj
      · simp at hnd

/-- One worker iteration preserves the per-job invariant across the table. -/
theorem workerIter_inv (base pid now : Nat) (out : Outcome) (db : List Job)
    (hinv : ∀ j ∈ db, JobInv j) :
    ∀ j ∈ workerIter base pid now out db, JobInv j := by
  intro j hj
  cases hsel : selectReady now db with
  | none =>
    rw [show workerIter base pid now out db = db by
      simp [workerIter, getJobToProcess, hsel]] at hj
    exact hinv j hj
  | some jc =>
    obtain ⟨hmem, helig⟩ := selectReady_spec now db jc hsel
    have hjc : jc.attempts ≤ jc.maxRetries :=
      (hinv jc hmem).2 (eligibleB_not_dead now jc helig)
    have hjcInv : JobInv (claimed pid now jc) := by
      refine ⟨fun hd => ?_, fun _ => ?_⟩
      · simp [claimed] at hd
      · simpa [claimed] using hjc
    have hclaimAttempts : (claimed pid now jc).attempts ≤ (claimed pid now jc).maxRetries := by
      simpa [claimed] using hjc
    cases hp : processJob base now out (claimed pid now jc) with
    | error e =>
      rw [show workerIter base pid now out db =
          updateWhere (fun x => decide (x.id = jc.id)) (fun _ => claimed pid now jc) db by
        simp [workerIter, getJobToProcess, hsel, hp]] at hj
      rcases mem_updateWhere _ _ _ _ hj with ⟨y, hy, _, rfl⟩ | ⟨y, hy, _, rfl⟩
      · exact hinv _ hy
      · exact hjcInv
    | ok j2 =>
      have hj2 : JobInv j2 := processJob_inv base now out _ j2 hclaimAttempts hp
      rw [show workerIter base pid now out db =
          updateWhere (fun x => decide (x.id = j2.id)) (fun _ => j2)
            (updateWhere (fun x => decide (x.id = jc.id)) (fun _ => claimed pid now jc) db) by
        simp [workerIter, getJobToProcess, hsel, hp]] at hj
      rcases mem_updateWhere _ _ _ _ hj with ⟨y, hy, _, rfl⟩ | ⟨y, hy, _, rfl⟩
      · rcases mem_updateWhere _ _ _ _ hy with ⟨z, hz, _, rfl⟩ | ⟨z, hz, _, rfl⟩
        · exact hinv _ hz
        · exact hjcInv
      · exact hj2

/-! ### Claim C1 — the atomic claim and `attempts` -/

/-- A concrete due pending job. -/
def c1job : Job :=
  { id := "a", command := "true", state := .pending, attempts := 0, maxRetries := 3,
    timeout := some 300, lastError := none, processPid := none,
    createdAt := 0, updatedAt := 0, retryAt := none }

/-- C1 counterexample: the claim operation does NOT increment `attempts`.
On a table holding one due pending job with `attempts = 0`, the row returned
by `get_job_to_process` still has `attempts = 0`, not `attempts + 1` as the
claim states. -/
theorem C1_no_increment_at_claim :
    (getJobToProcess 5 10 [c1job]).1 = some (claimed 5 10 c1job) ∧
    ¬ (claimed 5 10 c1job).attempts = c1job.attempts + 1 := by
  exact ⟨by decide, by decide⟩

/-- C1 (amended): when the claim finds a due job it atomically updates that
row to `state=processing` with the worker's pid recorded in the lock field and
`updated_at = now`, and returns the post-update snapshot — but it leaves
`attempts` unchanged; `attempts` is incremented only later, by the
failure-handling branches of `process_job`. -/
theorem C1_claim_transition (pid now : Nat) (db : List Job) (j j' : Job)
    (hsel : selectReady now db = some j)
    (h : (getJobToProcess pid now db).1 = some j') :
    j ∈ db ∧ eligibleB now j = true ∧ j' = claimed pid now j ∧
      j'.state = .processing ∧ j'.processPid = some pid ∧ j'.updatedAt = now ∧
      j'.attempts = j.attempts ∧
      (getJobToProcess pid now db).2 =
        updateWhere (fun x => decide (x.id = j.id)) (fun _ => j') db := by
  obtain ⟨hmem, helig⟩ := selectReady_spec now db j hsel
  simp only [getJobToProcess, hsel] at h ⊢
  injection h with h
  subst h
  exact ⟨hmem, helig, rfl, rfl, rfl, rfl, rfl, rfl⟩

/-- Witness for `C1_claim_transition` at a concrete table. -/
theorem C1_claim_transition_witness :
    c1job ∈ [c1job] ∧ eligibleB 10 c1job = true ∧
      claimed 5 10 c1job = claimed 5 10 c1job ∧
      (claimed 5 10 c1job).state = .processing ∧
      (claimed 5 10 c1job).processPid = some 5 ∧
      (claimed 5 10 c1job).updatedAt = 10 ∧
      (claimed 5 10 c1job).attempts = c1job.attempts ∧
      (getJobToProcess 5 10 [c1job]).2 =
        updateWhere (fun x => decide (x.id = c1job.id)) (fun _ => claimed 5 10 c1job) [c1job] :=
  C1_claim_transition 5 10 [c1job] c1job (claimed 5 10 c1job) (by decide) (by decide)

/-! ### Claim C2 — the lock/processing invariant -/

/-- A concrete claimed job mid-processing, locked by pid 7. -/
def c2job : Job :=
  { id := "j2", command := "false", state := .processing, attempts := 0, maxRetries := 3,
    timeout := some 300, lastError := none, processPid := some 7,
    createdAt := 0, updatedAt := 1, retryAt := none }

/-- The row `process_job` produces from `c2job` on exit code 1. -/
def c2res : Job :=
  { c2job with
    state := .failed
    attempts := 1
    lastError := some "Exit Code 1. Stderr: boom"
    retryAt := some 12
    updatedAt := 10 }

set_option maxRecDepth 4000 in
/-- C2: the retry transition out of `processing` does not clear the lock
field.  A job locked by pid 7 that fails with exit code 1 and has retry
budget left moves to `state='failed'` while `process_pid` is still 7 —
violating the invariant `locked_by non-null ⟺ state = processing`.
(`process_job` sets `process_pid = None` in its completed and dead branches
but not in either retry branch.) -/
theorem C2_retry_keeps_lock :
    processJob 2 10 (.ran 1 "" "boom") c2job = .ok c2res ∧
    c2res.state = .failed ∧ ¬ c2res.state = .processing ∧ c2res.processPid = some 7 := by
  exact ⟨by decide, rfl, by decide, rfl⟩

/-! ### Claim C3 — the attempts bound -/

/-- C3: every operation of the wired system (CLI enqueue, a worker
iteration, DLQ retry) preserves the per-job invariant, and under it every
job satisfies `attempts ≤ max_retries + 1`. -/
theorem C3_attempts_bounded (db db' : List Job)
    (hinv : ∀ j ∈ db, JobInv j) (hstep : Step db db') :
    (∀ j ∈ db', JobInv j) ∧ (∀ j ∈ db', j.attempts ≤ j.maxRetries + 1) := by
  have hpres : ∀ j ∈ db', JobInv j := by
    cases hstep with
    | enq data d newId now =>
      intro j hj
      simp only [enqueueCLI] at hj
      cases hc : data.command with
      | none =>
        rw [hc] at hj
        exact hinv j hj
      | some c =>
        simp only [hc] at hj
        by_cases hce : c = ""
        · rw [if_pos hce] at hj
          exact hinv j hj
        · rw [if_neg hce] at hj
          rcases List.mem_append.mp hj with hold | hnew
          · exact hinv j hold
          · rcases List.mem_singleton.mp hnew with rfl
            exact ⟨fun hd => by simp at hd, fun _ => Nat.zero_le _⟩
    | work base pid now out =>
      exact workerIter_inv base pid now out db hinv
    | dlq id now =>
      intro j hj
      simp only [dlqRetryCLI] at hj
      cases hf : db.find? (fun x => decide (x.id = id ∧ x.state = .dead)) with
      | none =>
        rw [hf] at hj
        exact hinv j hj
      | some jf =>
        rw [hf] at hj
        rcases mem_updateWhere _ _ _ _ hj with ⟨y, hy, _, rfl⟩ | ⟨y, hy, _, rfl⟩
        · exact hinv _ hy
        · exact ⟨fun hd => by simp at hd, fun _ => Nat.zero_le _⟩
  exact ⟨hpres, fun j hj => JobInv_bound j (hpres j hj)⟩

/-- A concrete pending job used to witness `C3_attempts_bounded`. -/
def w3job : Job :=
  { id := "w", command := "false", state := .pending, attempts := 0, maxRetries := 3,
    timeout := some 300, lastError := none, processPid := none,
    createdAt := 0, updatedAt := 0, retryAt := none }

/-- The row produced from `w3job` by one failing worker iteration. -/
def w3res : Job :=
  { id := "w", command := "false", state := .failed, attempts := 1, maxRetries := 3,
    timeout := some 300, lastError := some "Exit Code 1. Stderr: boom",
    processPid := some 5, createdAt := 0, updatedAt := 10, retryAt := some 12 }

set_option maxRecDepth 4000 in
/-- Witness for `C3_attempts_bounded`: one failing worker iteration on a
singleton table. -/
theorem C3_attempts_bounded_witness : w3res.attempts ≤ w3res.maxRetries + 1 :=
  (C3_attempts_bounded [w3job] (workerIter 2 5 10 (.ran 1 "" "boom") [w3job])
    (by intro j hj; rcases List.mem_singleton.mp hj with rfl; decide)
    (Step.work [w3job] 2 5 10 (.ran 1 "" "boom"))).2 w3res (by decide)

/-! ### Claim C4 — outcome classification -/

/-- A concrete due pending job with retry budget left, about to time out. -/
def c4job : Job :=
  { id := "j4", command := "sleep 10", state := .pending, attempts := 0, maxRetries := 3,
    timeout := some 1, lastError := none, processPid := none,
    createdAt := 0, updatedAt := 1, retryAt := none }

/-- C4: a timed-out execution with retry budget left does not produce a
retry with a future `run_at` — the timeout handler's retry branch raises
`NameError` on the unbound local `now`, and at the store level the job is
left stuck in `processing` (the exception propagates before any session
merge/commit of the decision). -/
theorem C4_timeout_retry_crashes :
    processJob 2 10 .timedOut (claimed 7 10 c4job) = .error .nameErrorNow ∧
    workerIter 2 7 10 .timedOut [c4job] = [claimed 7 10 c4job] ∧
    (claimed 7 10 c4job).state = .processing := by
  exact ⟨rfl, rfl, rfl⟩

/-! ### Claim C5 — backoff computation -/

/-- Lookup after a by-id update in the models-layer table. -/
theorem mFindById_updateWhere (id : String) (f : MRow → MRow)
    (hf : ∀ r, (f r).id = r.id) (db : List MRow) :
    mFindById (updateWhere (fun r => decide (r.id = id)) f db) id =
      (mFindById db id).map f := by
  unfold mFindById
  refine find?_updateWhere _ f (fun x hx => ?_) db
  simp only [decide_eq_true_eq] at hx ⊢
  rw [hf]
  exact hx

/-- Lookup after a by-id update in the storage-layer table. -/
theorem sFindById_updateWhere (id : String) (f : SRow → SRow)
    (hf : ∀ r, (f r).id = r.id) (db : List SRow) :
    sFindById (updateWhere (fun r => decide (r.id = id)) f db) id =
      (sFindById db id).map f := by
  unfold sFindById
  refine find?_updateWhere _ f (fun x hx => ?_) db
  simp only [decide_eq_true_eq] at hx ⊢
  rw [hf]
  exact hx

/-- Lookup of the updated id after a by-id update, models layer. -/
theorem mFind_after_update (id : String) (f : MRow → MRow)
    (hf : ∀ r, (f r).id = r.id) (db : List MRow) (r : MRow)
    (h : mFindById db id = some r) :
    mFindById (updateWhere (fun x => decide (x.id = id)) f db) id = some (f r) := by
  rw [mFindById_updateWhere id f hf db, h]
  rfl

/-- Lookup of the updated id after a by-id update, storage layer. -/
theorem sFind_after_update (id : String) (f : SRow → SRow)
    (hf : ∀ r, (f r).id = r.id) (db : List SRow) (r : SRow)
    (h : sFindById db id = some r) :
    sFindById (updateWhere (fun x => decide (x.id = id)) f db) id = some (f r) := by
  rw [sFindById_updateWhere id f hf db, h]
  rfl

/-- The row produced by the exit-code retry branch of `process_job`:
`attempts += 1`, `retry_at = now + backoff_base ** attempts`,
`state='failed'`. -/
def retried (base now : Nat) (rc : Int) (se : String) (j : Job) : Job :=
  { j with attempts := j.attempts + 1,
           lastError := some ("Exit Code " ++ toString rc ++ ". Stderr: " ++ se.take 100),
           retryAt := some (now + base ^ (j.attempts + 1)),
           state := .failed, updatedAt := now }

theorem processJob_retry_eq (base now : Nat) (rc : Int) (sa sb : String) (j : Job)
    (h0 : ¬ rc = 0) (hl : j.attempts + 1 ≤ j.maxRetries) :
    processJob base now (.ran rc sa sb) j = .ok (retried base now rc sb j) := by
  simp only [processJob, retried, if_neg h0, if_pos hl]

/-- C5: the exit-code retry branch schedules exactly
`retry_at = now + backoff_base ^ attempts` with `attempts` counting the
just-finished execution (first failure gets `base ^ 1`); across two
consecutive retries of the same job the second scheduled time is at least
`base ^ k` after the first retry's clock reading; and `schedule_retry` of
`models.py` writes `next_run_at = now + base_backoff ^ attempts` likewise. -/
theorem C5_backoff_exact_and_monotone (base now now2 : Nat) (j : Job)
    (rc rc2 : Int) (s1 s2 s3 s4 : String) (id : String) (db : List MRow)
    (r : MRow) (a : Nat)
    (hrc : ¬ rc = 0) (hle : j.attempts + 1 ≤ j.maxRetries)
    (hrc2 : ¬ rc2 = 0) (hle2 : j.attempts + 2 ≤ j.maxRetries)
    (hbase : 1 ≤ base) (hnow : now ≤ now2)
    (hfind : mFindById db id = some r) :
    processJob base now (.ran rc s1 s2) j = .ok (retried base now rc s2 j) ∧
    (retried base now rc s2 j).retryAt = some (now + base ^ (j.attempts + 1)) ∧
    processJob base now2 (.ran rc2 s3 s4) (retried base now rc s2 j) =
      .ok (retried base now2 rc2 s4 (retried base now rc s2 j)) ∧
    (retried base now2 rc2 s4 (retried base now rc s2 j)).retryAt =
      some (now2 + base ^ (j.attempts + 2)) ∧
    base ^ (j.attempts + 1) ≤ now2 + base ^ (j.attempts + 2) - now ∧
    mFindById (schedule_retry id a base now db) id =
      some { r with state := .pending, nextRunAt := now + base ^ a,
                    updatedAt := now, lockedBy := none } := by
  have hle2' : (retried base now rc s2 j).attempts + 1 ≤
      (retried base now rc s2 j).maxRetries := by
    simpa [retried] using hle2
  refine ⟨processJob_retry_eq base now rc s1 s2 j hrc hle, rfl,
    processJob_retry_eq base now2 rc2 s3 s4 _ hrc2 hle2', rfl, ?_, ?_⟩
  · have hp : base ^ (j.attempts + 1) ≤ base ^ (j.attempts + 2) :=
      Nat.pow_le_pow_right hbase (Nat.le_succ _)
    omega
  · unfold schedule_retry
    exact mFind_after_update id
      (fun x => { x with state := .pending, nextRunAt := now + base ^ a,
                         updatedAt := now, lockedBy := none })
      (fun x => rfl) db r hfind

/-- A concrete processing job with spare retry budget. -/
def c5job : Job :=
  { id := "j5", command := "false", state := .processing, attempts := 0, maxRetries := 5,
    timeout := some 300, lastError := none, processPid := some 3,
    createdAt := 0, updatedAt := 0, retryAt := none }

/-- A concrete models-layer row locked mid-processing. -/
def c5mrow : MRow :=
  { id := "m5", command := "x", state := .processing, attempts := 1, maxRetries := 3,
    baseBackoff := 2, createdAt := 0, updatedAt := 0, nextRunAt := 0,
    lockedBy := some "w", timeout := none, outputLog := none }

/-- Witness for `C5_backoff_exact_and_monotone` at concrete inputs. -/
theorem C5_backoff_witness :
    processJob 2 10 (.ran 1 "a" "b") c5job = .ok (retried 2 10 1 "b" c5job) ∧
    (retried 2 10 1 "b" c5job).retryAt = some (10 + 2 ^ (c5job.attempts + 1)) ∧
    processJob 2 20 (.ran 1 "c" "d") (retried 2 10 1 "b" c5job) =
      .ok (retried 2 20 1 "d" (retried 2 10 1 "b" c5job)) ∧
    (retried 2 20 1 "d" (retried 2 10 1 "b" c5job)).retryAt =
      some (20 + 2 ^ (c5job.attempts + 2)) ∧
    2 ^ (c5job.attempts + 1) ≤ 20 + 2 ^ (c5job.attempts + 2) - 10 ∧
    mFindById (schedule_retry "m5" 1 2 10 [c5mrow]) "m5" =
      some { c5mrow with state := .pending, nextRunAt := 10 + 2 ^ 1,
                         updatedAt := 10, lockedBy := none } :=
  C5_backoff_exact_and_monotone 2 10 20 c5job 1 1 "a" "b" "c" "d" "m5" [c5mrow] c5mrow 1
    (by decide) (by decide) (by decide) (by decide) (by decide) (by decide) (by decide)

/-! ### Claim C6 — strictness of complete and bury -/

/-- A concrete models-layer row that is already dead. -/
def c6row : MRow :=
  { id := "m6", command := "false", state := .dead, attempts := 4, maxRetries := 3,
    baseBackoff := 2, createdAt := 0, updatedAt := 3, nextRunAt := 0,
    lockedBy := none, timeout := none, outputLog := some "old" }

/-- C6 counterexample: applying bury (`mark_dead`) to an already-dead row is
not rejected — there is no error channel at all — and the row is rewritten
(`updated_at` and `output_log` change), not left unchanged. -/
theorem C6_bury_dead_not_rejected :
    mark_dead "m6" 9 none [c6row] =
      [{ c6row with state := .dead, updatedAt := 9, outputLog := none, lockedBy := none }] ∧
    ¬ mark_dead "m6" 9 none [c6row] = [c6row] := by
  exact ⟨by decide, by decide⟩

/-- C6 (amended): `mark_dead`, `update_job_state` (the completion path) and
`move_to_dead` are unconditional by-id updates: whatever the current state of
the addressed row, they overwrite `state`, `updated_at` and the log fields
and clear the lock, raising no `IllegalTransition`. -/
theorem C6_unconditional_complete_bury (id id2 : String) (now : Nat)
    (log err : Option String) (st : JState) (mdb : List MRow) (sdb : List SRow)
    (r : MRow) (s : SRow)
    (hm : mFindById mdb id = some r) (hs : sFindById sdb id2 = some s) :
    mFindById (mark_dead id now log mdb) id =
      some { r with state := .dead, updatedAt := now, outputLog := log, lockedBy := none } ∧
    mFindById (update_job_state id st now log mdb) id =
      some { r with state := st, updatedAt := now, outputLog := log, lockedBy := none } ∧
    sFindById (move_to_dead id2 now err sdb) id2 =
      some { s with state := .dead, updatedAt := now, lastError := err } := by
  refine ⟨?_, ?_, ?_⟩
  · unfold mark_dead
    exact mFind_after_update id
      (fun x => { x with state := .dead, updatedAt := now, outputLog := log, lockedBy := none })
      (fun x => rfl) mdb r hm
  · unfold update_job_state
    exact mFind_after_update id
      (fun x => { x with state := st, updatedAt := now, outputLog := log, lockedBy := none })
      (fun x => rfl) mdb r hm
  · unfold move_to_dead
    exact sFind_after_update id2
      (fun x => { x with state := .dead, updatedAt := now, lastError := err })
      (fun x => rfl) sdb s hs

/-- A concrete completed storage-layer row. -/
def c6srow : SRow :=
  { id := "s6", payload := "p", command := "false", state := .completed, attempts := 1,
    maxRetries := 3, priority := 0, runAt := none, createdAt := 0, updatedAt := 2,
    lastError := none }

/-- Witness for `C6_unconditional_complete_bury` at concrete rows. -/
theorem C6_unconditional_witness :
    mFindById (mark_dead "m6" 9 none [c6row]) "m6" =
      some { c6row with state := .dead, updatedAt := 9, outputLog := none, lockedBy := none } ∧
    mFindById (update_job_state "m6" .completed 9 none [c6row]) "m6" =
      some { c6row with state := .completed, updatedAt := 9, outputLog := none, lockedBy := none } ∧
    sFindById (move_to_dead "s6" 9 (some "e") [c6srow]) "s6" =
      some { c6srow with state := .dead, updatedAt := 9, lastError := some "e" } :=
  C6_unconditional_complete_bury "m6" "s6" 9 none (some "e") .completed
    [c6row] [c6srow] c6row c6srow (by decide) (by decide)

/-! ### Claim C7 — promote_dead -/

/-- A concrete dead storage-layer row with a stale `run_at`. -/
def c7row : SRow :=
  { id := "s7", payload := "p", command := "false", state := .dead, attempts := 4,
    maxRetries := 3, priority := 0, runAt := some 3, createdAt := 0, updatedAt := 2,
    lastError := some "boom" }

/-- The row produced by promoting `c7row` at time 10. -/
def c7res : SRow :=
  { c7row with state := .pending, attempts := 0, updatedAt := 10, lastError := none }

/-- C7 counterexample: `retry_dead_job` reports success and resets
`attempts` and `last_error`, but it does NOT reset `run_at` to now — the
promoted row keeps its old `run_at` (3, not the current time 10). -/
theorem C7_run_at_not_reset :
    (retry_dead_job "s7" 10 [c7row]).1 = true ∧
    sFindById (retry_dead_job "s7" 10 [c7row]).2 "s7" = some c7res ∧
    c7res.runAt = some 3 ∧ ¬ c7res.runAt = some 10 := by
  exact ⟨by decide, by decide, by decide, by decide⟩

/-- C7 (amended): `retry_dead_job` succeeds exactly when a dead row with the
given id exists; on failure the table is unchanged; on success the row is
reset to `state='pending'`, `attempts=0`, `updated_at=now`,
`last_error=NULL` with `run_at` left as it was; and a second call on the
same id then reports failure (the row is no longer dead). -/
theorem retry_dead_job_eq_none (id : String) (now : Nat) (db : List SRow)
    (hf : db.find? (fun r => decide (r.id = id ∧ r.state = .dead)) = none) :
    retry_dead_job id now db = (false, db) := by
  unfold retry_dead_job
  rw [hf]

theorem retry_dead_job_eq_some (id : String) (now : Nat) (db : List SRow) (r0 : SRow)
    (hf : db.find? (fun r => decide (r.id = id ∧ r.state = .dead)) = some r0) :
    retry_dead_job id now db =
      (true, updateWhere (fun r => decide (r.id = id))
        (fun r => { r with state := .pending, attempts := 0,
                           updatedAt := now, lastError := none }) db) := by
  unfold retry_dead_job
  rw [hf]

theorem C7_promote_dead (id : String) (now now2 : Nat) (db : List SRow) :
    ((retry_dead_job id now db).1 = true ↔ ∃ r ∈ db, r.id = id ∧ r.state = .dead) ∧
    ((retry_dead_job id now db).1 = false → (retry_dead_job id now db).2 = db) ∧
    ((retry_dead_job id now db).1 = true →
      (retry_dead_job id now db).2 =
        updateWhere (fun r => decide (r.id = id))
          (fun r => { r with state := .pending, attempts := 0,
                             updatedAt := now, lastError := none }) db) ∧
    ((retry_dead_job id now db).1 = true →
      (retry_dead_job id now2 ((retry_dead_job id now db).2)).1 = false) := by
  cases hf : db.find? (fun r => decide (r.id = id ∧ r.state = .dead)) with
  | none =>
    have hno : ¬ ∃ r ∈ db, r.id = id ∧ r.state = .dead := by
      rintro ⟨r, hr, h1, h2⟩
      have hfr := List.find?_eq_none.mp hf r hr
      simp [h1, h2] at hfr
    rw [retry_dead_job_eq_none id now db hf]
    refine ⟨?_, ?_, ?_, ?_⟩
    · exact ⟨fun hfalse => absurd hfalse (by simp), fun hex => absurd hex hno⟩
    · intro _
      rfl
    · intro ht
      exact absurd ht (by simp)
    · intro ht
      exact absurd ht (by simp)
  | some r0 =>
    have hmem := List.mem_of_find?_eq_some hf
    have hp := List.find?_some hf
    simp only [decide_eq_true_eq] at hp
    rw [retry_dead_job_eq_some id now db r0 hf]
    refine ⟨?_, ?_, ?_, ?_⟩
    · exact ⟨fun _ => ⟨r0, hmem, hp⟩, fun _ => rfl⟩
    · intro hfalse
      exact absurd hfalse (by simp)
    · intro _
      rfl
    · intro _
      have hnone : (updateWhere (fun r => decide (r.id = id))
          (fun r => { r with state := .pending, attempts := 0,
                             updatedAt := now, lastError := none }) db).find?
            (fun r => decide (r.id = id ∧ r.state = .dead)) = none := by
        apply List.find?_eq_none.mpr
        intro x hx
        rcases mem_updateWhere _ _ _ _ hx with ⟨y, _, hyid, rfl⟩ | ⟨y, _, _, rfl⟩
        · simp only [decide_eq_true_eq] at hyid ⊢
          intro hc
          rw [hc.1] at hyid
          simp at hyid
        · simp
      show (retry_dead_job id now2 (updateWhere (fun r => decide (r.id = id))
        (fun r => { r with state := .pending, attempts := 0,
                           updatedAt := now, lastError := none }) db)).1 = false
      rw [retry_dead_job_eq_none id now2 _ hnone]

/-- Witness for `C7_promote_dead`: promote then promote again. -/
theorem C7_promote_dead_witness :
    (retry_dead_job "s7" 11 ((retry_dead_job "s7" 10 [c7row]).2)).1 = false :=
  (C7_promote_dead "s7" 10 11 [c7row]).2.2.2 (by decide)

/-! ### Claim C8 — FIFO selection order -/

/-- Job with id "b", created at tick 5. -/
def c8b : Job :=
  { id := "b", command := "x", state := .pending, attempts := 0, maxRetries := 3,
    timeout := some 300, lastError := none, processPid := none,
    createdAt := 5, updatedAt := 5, retryAt := none }

/-- Job with id "a", identical but inserted after "b". -/
def c8a : Job := { c8b with id := "a" }

/-- C8 counterexample: with two eligible jobs of equal `created_at`, the
selection returns the earlier-inserted row "b", not the lexicographically
smallest id "a" — the query orders by `created_at` alone, with no id
tie-break term. -/
theorem C8_no_id_tiebreak :
    selectReady 10 [c8b, c8a] = some c8b ∧ ¬ c8b.id = "a" ∧
    c8a ∈ [c8b, c8a] ∧ eligibleB 10 c8a = true ∧
    c8a.createdAt = c8b.createdAt ∧ c8a.id = "a" ∧ c8b.id = "b" := by
  refine ⟨by decide, by decide, by decide, by decide, by decide, by decide, by decide⟩

/-- C8 (amended): the claim selection is FIFO on `created_at` over the
eligible set — the selected job is eligible and has minimal `created_at`
among eligible rows — but ties on `created_at` are resolved by table order,
not by id. -/
theorem C8_fifo_selection (now : Nat) (db : List Job) (j x : Job)
    (h : selectReady now db = some j) (hx : x ∈ db) (hex : eligibleB now x = true) :
    j ∈ db ∧ eligibleB now j = true ∧ j.createdAt ≤ x.createdAt := by
  obtain ⟨hm, he⟩ := selectReady_spec now db j h
  exact ⟨hm, he, pickFirstMin_min _ _ h x (List.mem_filter.mpr ⟨hx, hex⟩)⟩

/-- Witness for `C8_fifo_selection` on the two-job table. -/
theorem C8_fifo_selection_witness :
    c8b ∈ [c8b, c8a] ∧ eligibleB 10 c8b = true ∧ c8b.createdAt ≤ c8a.createdAt :=
  C8_fifo_selection 10 [c8b, c8a] c8b c8a (by decide) (by decide) (by decide)

/-! ### Claim C9 — enqueue validation -/

/-- The row `create_job` inserts for a zero timeout. -/
def c9row : MRow :=
  { id := "j9", command := "sleep 5", state := .pending, attempts := 0, maxRetries := 3,
    baseBackoff := 2, createdAt := 7, updatedAt := 7, nextRunAt := 7, lockedBy := none,
    timeout := some 0, outputLog := none }

/-- C9 counterexample: a job with `timeout = 0` is NOT rejected at enqueue —
`create_job` performs no timeout validation and happily inserts the row. -/
theorem C9_zero_timeout_inserted :
    create_job "sleep 5" 3 2 (some 0) none "j9" 7 [] = ("j9", [c9row]) ∧
    c9row.timeout = some 0 := by
  exact ⟨by decide, rfl⟩

/-- C9 (amended): the CLI `enqueue` rejects a missing or empty `command`
with no insert (Python truthiness of `data.get('command')`); with a
non-empty command it inserts a pending row with `attempts=0`; `timeout` is
never validated — the CLI ignores the field (the ORM default 300 applies)
and `create_job` inserts whatever timeout it is given, including zero or
negative values. -/
theorem C9_enqueue_validation (data : EnqSpec) (d : Nat) (nid : String) (now : Nat)
    (db : List Job) (c cmd : String) (mr bb : Nat) (t : Option Int) (ra : Option Nat)
    (mid : String) (cr : Nat) (mdb : List MRow) :
    ((data.command = none ∨ data.command = some "") →
      enqueueCLI data d nid now db = (none, db)) ∧
    (data.command = some c → ¬ c = "" →
      enqueueCLI data d nid now db =
        (some nid,
         db ++ [{ id := nid, command := c, state := .pending, attempts := 0,
                  maxRetries := data.max_retries.getD d, timeout := some 300,
                  lastError := none, processPid := none, createdAt := now,
                  updatedAt := now, retryAt := none }])) ∧
    (create_job cmd mr bb t ra mid cr mdb =
      (mid, mdb ++ [{ id := mid, command := cmd, state := .pending, attempts := 0,
                      maxRetries := mr, baseBackoff := bb, createdAt := cr,
                      updatedAt := cr, nextRunAt := ra.getD cr, lockedBy := none,
                      timeout := t, outputLog := none }])) := by
  refine ⟨?_, ?_, rfl⟩
  · rintro (hn | he)
    · simp [enqueueCLI, hn]
    · simp [enqueueCLI, he]
  · intro hc hne
    simp [enqueueCLI, hc, hne]

/-- Witness for `C9_enqueue_validation`: an empty command is rejected. -/
theorem C9_enqueue_validation_witness :
    enqueueCLI ⟨some "", none, none⟩ 3 "n1" 5 [] = (none, []) :=
  (C9_enqueue_validation ⟨some "", none, none⟩ 3 "n1" 5 [] "x" "y" 0 0 none none
    "m" 0 []).1 (Or.inr rfl)

/-! ### Claim C10 — claim eligibility -/

/-- Eligibility as the claim words it: state is pending or failed, and
`retry_at` is null or has passed. -/
def specEligible (now : Nat) (j : Job) : Prop :=
  (j.state = .pending ∨ j.state = .failed) ∧
  (j.retryAt = none ∨ ∃ t, j.retryAt = some t ∧ t ≤ now)

/-- C10: the worker's claim filter is exactly the predicate "state is
pending or failed, and retry_at is null or ≤ now"; jobs in `processing`,
`completed` or `dead` never pass the filter; and whatever the claim returns
came from an eligible row of the table. -/
theorem C10_claim_eligibility (now pid : Nat) (db : List Job) (j jsel j' : Job) :
    (eligibleB now j = true ↔ specEligible now j) ∧
    ((j.state = .processing ∨ j.state = .completed ∨ j.state = .dead) →
      eligibleB now j = false) ∧
    (selectReady now db = some jsel → (getJobToProcess pid now db).1 = some j' →
      jsel ∈ db ∧ eligibleB now jsel = true ∧ j' = claimed pid now jsel) := by
  refine ⟨?_, ?_, ?_⟩
  · cases hr : j.retryAt with
    | none => simp [eligibleB, specEligible, hr]
    | some t => simp [eligibleB, specEligible, hr]
  · rintro (h | h | h) <;> simp [eligibleB, h]
  · intro hsel h
    obtain ⟨hmem, helig⟩ := selectReady_spec now db jsel hsel
    simp only [getJobToProcess, hsel] at h
    injection h with h
    exact ⟨hmem, helig, h.symm⟩

/-- Witness for `C10_claim_eligibility` at a concrete job and table. -/
theorem C10_claim_eligibility_witness :
    (eligibleB 10 c1job = true ↔ specEligible 10 c1job) ∧
    (c1job ∈ [c1job] ∧ eligibleB 10 c1job = true ∧
      claimed 5 10 c1job = claimed 5 10 c1job) :=
  ⟨(C10_claim_eligibility 10 5 [c1job] c1job c1job (claimed 5 10 c1job)).1,
   (C10_claim_eligibility 10 5 [c1job] c1job c1job (claimed 5 10 c1job)).2.2
     (by decide) (by decide)⟩

end QueueCTL
